import Mathlib

set_option maxRecDepth 8192

/-!
Verification of the chunked file-transfer service (server.py / client.py).

Shallow embedding conventions:
- bytes are natural numbers, byte strings are lists of naturals;
- text payloads are ASCII, so a string payload is embedded as the list of
  its character code points (equal to its UTF-8 bytes for the strings the
  protocol uses);
- the transport is assumed to deliver every sent frame (the send retry
  loop is modelled as a successful send), while arbitrary chunking of the
  receive stream is modelled explicitly for the framing codec;
- Python file reads are modelled on a file content list: seek plus read of
  n bytes from position p yields (content.drop p).take n, capped at end of
  file exactly as the operating system caps reads;
- uncaught Python exceptions are modelled by an error field in the result
  of each operation; offsets and sizes are embedded as naturals, matching
  every request the claims quantify over (all are non-negative).
-/

def BUFFER_SIZE : Nat := 4096

def DATA_DIRECTORY : String := "../data"

/-- Model of os.path.join(DATA_DIRECTORY, file_name). -/
def dataPath (file_name : String) : String := DATA_DIRECTORY ++ "/" ++ file_name

/-- ASCII string to payload bytes (code points coincide with UTF-8 here). -/
def strBytes (s : String) : List Nat := s.data.map Char.toNat

/-- The sentinel payload, the three bytes of "EOF". -/
def EOFbytes : List Nat := strBytes "EOF"

/-- struct.pack("!I", n): big-endian 4-byte encoding of a length. -/
def toBytes4 (n : Nat) : List Nat :=
  [n / 16777216 % 256, n / 65536 % 256, n / 256 % 256, n % 256]

/-- struct.unpack("!I", header): big-endian 4-byte decoding. -/
def fromBytes4 : List Nat → Nat
  | [a, b, c, d] => ((a * 256 + b) * 256 + c) * 256 + d
  | _ => 0

/-- Client._send / Server._send framing: 4-byte big-endian length prefix
followed by the payload. -/
def encode (p : List Nat) : List Nat := toBytes4 p.length ++ p

/-- Client._recv_n: receive exactly size bytes from a stream delivered as a
list of chunks; each recv call returns at most the requested count from the
head chunk; an exhausted or closed stream yields none. -/
def recvN (stream : List (List Nat)) (size : Nat) :
    Option (List Nat × List (List Nat)) :=
  if size = 0 then some ([], stream)
  else
    match stream with
    | [] => none
    | c :: rest =>
      if hc : c = [] then none
      else
        match recvN
            (if c.drop (min size c.length) = [] then rest
             else c.drop (min size c.length) :: rest)
            (size - min size c.length) with
        | none => none
        | some (d, s) => some (c.take (min size c.length) ++ d, s)
termination_by size
decreasing_by
  have h1 : c.length ≠ 0 := fun h => hc (List.eq_nil_of_length_eq_zero h)
  omega

/-- Client._recv_raw: read one frame header then its payload; a missing
header is converted to size 0 with an empty payload, a short payload read
yields none for the data, mirroring the Python return values. -/
def recvRaw (stream : List (List Nat)) :
    Nat × Option (List Nat) × List (List Nat) :=
  match recvN stream 4 with
  | none => (0, some [], stream)
  | some (header, s1) =>
    match recvN s1 (fromBytes4 header) with
    | none => (fromBytes4 header, none, s1)
    | some (d, s2) => (fromBytes4 header, some d, s2)

lemma fromBytes4_toBytes4 (n : Nat) (h : n < 4294967296) :
    fromBytes4 (toBytes4 n) = n := by
  simp only [toBytes4, fromBytes4]
  omega

lemma toBytes4_length (n : Nat) : (toBytes4 n).length = 4 := rfl

/-- Splitting a list into blocks of BUFFER_SIZE, with an explicit fuel
argument to keep the recursion structural. -/
def pyChunksF : Nat → List Nat → List (List Nat)
  | 0, _ => []
  | _, [] => []
  | fuel + 1, l => l.take BUFFER_SIZE :: pyChunksF fuel (l.drop BUFFER_SIZE)

/-- The sequence of BUFFER_SIZE blocks of a byte list. -/
def pyChunks (l : List Nat) : List (List Nat) := pyChunksF l.length l

lemma pyChunksF_congr :
    ∀ f1 f2 (l : List Nat), l.length ≤ f1 → l.length ≤ f2 →
      pyChunksF f1 l = pyChunksF f2 l := by
  intro f1
  induction f1 using Nat.strong_induction_on with
  | _ f1 ih =>
    intro f2 l h1 h2
    match f1, f2, l with
    | 0, f2, l =>
      have : l = [] := List.eq_nil_of_length_eq_zero (Nat.le_zero.mp h1)
      subst this
      cases f2 <;> rfl
    | f1 + 1, 0, l =>
      have : l = [] := List.eq_nil_of_length_eq_zero (Nat.le_zero.mp h2)
      subst this; rfl
    | f1 + 1, f2 + 1, [] => rfl
    | f1 + 1, f2 + 1, x :: xs =>
      simp only [pyChunksF]
      have hlen : ((x :: xs).drop BUFFER_SIZE).length = (x :: xs).length - BUFFER_SIZE := by
        simp [List.length_drop]
      have hBS : 0 < BUFFER_SIZE := by norm_num [BUFFER_SIZE]
      have hl1 : ((x :: xs).drop BUFFER_SIZE).length ≤ f1 := by
        simp only [hlen]; simp only [List.length_cons] at h1 ⊢; omega
      have hl2 : ((x :: xs).drop BUFFER_SIZE).length ≤ f2 := by
        simp only [hlen]; simp only [List.length_cons] at h2 ⊢; omega
      rw [ih f1 (by omega) f2 _ hl1 hl2]

lemma pyChunks_nil : pyChunks [] = [] := rfl

lemma pyChunks_cons (l : List Nat) (h : l ≠ []) :
    pyChunks l = l.take BUFFER_SIZE :: pyChunks (l.drop BUFFER_SIZE) := by
  obtain ⟨x, xs, rfl⟩ := List.exists_cons_of_ne_nil h
  show pyChunksF (x :: xs).length (x :: xs) = _
  simp only [List.length_cons, pyChunksF]
  congr 1
  apply pyChunksF_congr
  · have hBS : 0 < BUFFER_SIZE := by norm_num [BUFFER_SIZE]
    simp only [List.length_drop, List.length_cons]
    omega
  · exact le_refl _

lemma recvN_spec :
    ∀ k size (stream : List (List Nat)), size ≤ k →
      (∀ c ∈ stream, c ≠ []) → size ≤ stream.flatten.length →
      ∃ rest, recvN stream size = some (stream.flatten.take size, rest) ∧
        rest.flatten = stream.flatten.drop size ∧ (∀ c ∈ rest, c ≠ []) := by
  intro k
  induction k with
  | zero =>
    intro size stream hk hne _
    have hs : size = 0 := Nat.le_zero.mp hk
    subst hs
    exact ⟨stream, by rw [recvN.eq_def]; simp, by simp, hne⟩
  | succ k ih =>
    intro size stream hk hne hlen
    by_cases hs : size = 0
    · subst hs
      exact ⟨stream, by rw [recvN.eq_def]; simp, by simp, hne⟩
    · match stream with
      | [] =>
        simp only [List.flatten_nil, List.length_nil] at hlen
        omega
      | c :: rest =>
        have hc : c ≠ [] := hne c (by simp)
        have hclen : 0 < c.length := List.length_pos.mpr hc
        have ht1 : 1 ≤ min size c.length := by omega
        have htc : min size c.length ≤ c.length := Nat.min_le_right _ _
        have hts : min size c.length ≤ size := Nat.min_le_left _ _
        have hdrop : ((c :: rest).flatten).drop (min size c.length) =
            c.drop (min size c.length) ++ rest.flatten := by
          simp only [List.flatten_cons, List.drop_append_eq_append_drop]
          have h0 : min size c.length - c.length = 0 := by omega
          rw [h0, List.drop_zero]
        have hflat' :
            (if c.drop (min size c.length) = [] then rest
              else c.drop (min size c.length) :: rest).flatten =
            ((c :: rest).flatten).drop (min size c.length) := by
          rw [hdrop]
          by_cases hd : c.drop (min size c.length) = []
          · simp [hd]
          · simp [hd]
        have hne' : ∀ x ∈ (if c.drop (min size c.length) = [] then rest
              else c.drop (min size c.length) :: rest), x ≠ [] := by
          by_cases hd : c.drop (min size c.length) = []
          · simp only [hd, if_pos]
            exact fun x hx => hne x (by simp [hx])
          · simp only [hd, if_neg, ite_false]
            intro x hx
            rcases List.mem_cons.mp hx with h | h
            · subst h; exact hd
            · exact hne x (by simp [h])
        have hlen' : size - min size c.length ≤
            (if c.drop (min size c.length) = [] then rest
              else c.drop (min size c.length) :: rest).flatten.length := by
          rw [hflat', List.length_drop]
          simp only [List.flatten_cons, List.length_append] at hlen ⊢
          omega
        obtain ⟨rfin, heq, hrflat, hrne⟩ :=
          ih (size - min size c.length) _ (by omega) hne' hlen'
        refine ⟨rfin, ?_, ?_, hrne⟩
        · have htake : c.take (min size c.length) ++
              ((if c.drop (min size c.length) = [] then rest
                else c.drop (min size c.length) :: rest).flatten).take
                (size - min size c.length) =
              ((c :: rest).flatten).take size := by
            rw [hflat']
            have h1 : c.take (min size c.length) =
                ((c :: rest).flatten).take (min size c.length) := by
              simp only [List.flatten_cons, List.take_append_eq_append_take]
              have : min size c.length - c.length = 0 := by omega
              rw [this, List.take_zero, List.append_nil]
            rw [h1, ← List.take_add]
            congr 1
            omega
          rw [recvN.eq_def]
          simp only [if_neg hs, dif_neg hc, heq, htake]
        · rw [hrflat, hflat', List.drop_drop]
          congr 1
          omega

lemma pyChunks_flatten (l : List Nat) : (pyChunks l).flatten = l := by
  suffices h : ∀ n (l : List Nat), l.length ≤ n → (pyChunks l).flatten = l from
    h l.length l (le_refl _)
  intro n
  induction n using Nat.strong_induction_on with
  | _ n ih =>
    intro l hl
    by_cases h : l = []
    · subst h; simp [pyChunks_nil]
    · rw [pyChunks_cons l h]
      have hBS : 0 < BUFFER_SIZE := by norm_num [BUFFER_SIZE]
      have hpos : 0 < l.length := List.length_pos.mpr h
      have hdl : (l.drop BUFFER_SIZE).length < n := by
        simp only [List.length_drop]; omega
      simp only [List.flatten_cons]
      rw [ih (l.drop BUFFER_SIZE).length hdl _ (le_refl _)]
      exact List.take_append_drop _ _

/-- The Python exceptions the embedded code can raise uncaught. -/
inductive PyErr
  | keyError
  | indexError
  | valueError
  | zeroDivisionError
  | fileNotFoundError
  | typeError
deriving DecidableEq, Repr

/-- Result of one server operation: the frame payloads sent in order, the
uncaught exception if one was raised, and the disk paths opened. -/
structure SrvOut where
  frames : List (List Nat)
  err : Option PyErr
  reads : List String
deriving DecidableEq, Repr

/-- Python dict.get on the catalog (unique keys). -/
def dictGet : List (String × Nat) → String → Option Nat
  | [], _ => none
  | (k, v) :: rest, key => if k = key then some v else dictGet rest key

/-- Server._get_file_status: reject with 550 when the catalog is non-empty
and does not hold the name; otherwise report ok with the data-dir path.
The frames component holds the 550 reply it sends itself. -/
def getFileStatus (catalog : List (String × Nat)) (file_name : String) :
    Bool × Option String × List (List Nat) :=
  if catalog ≠ [] ∧ dictGet catalog file_name = none then
    (false, none, [strBytes ("550 File unavailable: " ++ file_name)])
  else
    (true, some (dataPath file_name), [])

/-- One file.read(min(BUFFER_SIZE, size - total_sent)) at position
offset + total_sent of the file content. -/
def readData (content : List Nat) (offset size total : Nat) : List Nat :=
  (content.drop (offset + total)).take (min BUFFER_SIZE (size - total))

/-- The send loop of Server._retr: read a block, send it as one frame,
stop on an empty read or once total_sent reaches size. Returns the data
frames sent and the final total_sent. -/
def retrLoop (content : List Nat) (offset size total : Nat) :
    List (List Nat) × Nat :=
  if readData content offset size total = [] then ([], total)
  else if size ≤ total + (readData content offset size total).length then
    ([readData content offset size total],
      total + (readData content offset size total).length)
  else
    ((readData content offset size total) ::
        (retrLoop content offset size
          (total + (readData content offset size total).length)).1,
      (retrLoop content offset size
        (total + (readData content offset size total).length)).2)
termination_by size - total
decreasing_by
  all_goals
    rename_i h1 h2
    have hlen : 0 < (readData content offset size total).length :=
      List.length_pos.mpr h1
    omega

/-- Server._retr: permission check, 150 reply, open the file, stream the
data frames, send the EOF sentinel, then the progress print divides by
size (ZeroDivisionError when size = 0) before the 226 reply. -/
def retr (catalog : List (String × Nat)) (disk : String → Option (List Nat))
    (file_name : String) (offset size : Nat) : SrvOut :=
  match getFileStatus catalog file_name with
  | (false, _, fs) => ⟨fs, none, []⟩
  | (true, _, fs) =>
    match disk (dataPath file_name) with
    | none =>
      ⟨fs ++ [strBytes "150 File status ok"], some PyErr.fileNotFoundError,
        [dataPath file_name]⟩
    | some content =>
      if size = 0 then
        ⟨fs ++ [strBytes "150 File status ok"] ++
            (retrLoop content offset size 0).1 ++ [EOFbytes],
          some PyErr.zeroDivisionError, [dataPath file_name]⟩
      else
        ⟨fs ++ [strBytes "150 File status ok"] ++
            (retrLoop content offset size 0).1 ++ [EOFbytes] ++
            [strBytes "226 Transfer complete"],
          none, [dataPath file_name]⟩

/-- json.dumps of the catalog as a name to size mapping. -/
def jsonCatalog (catalog : List (String × Nat)) : String :=
  "\x7b" ++
    String.intercalate ", "
      (catalog.map fun p => "\"" ++ p.1 ++ "\": " ++ toString p.2) ++
  "\x7d"

/-- Server._list: 550 when the catalog is empty, else 150, the serialized
catalog, and 226. -/
def listOut (catalog : List (String × Nat)) : SrvOut :=
  if catalog = [] then
    ⟨[strBytes "550 File permissions unavailable"], none, []⟩
  else
    ⟨[strBytes "150 File status ok", strBytes (jsonCatalog catalog),
        strBytes "226 File permissions sent"], none, []⟩

/-- Helper for pySplit: cut a character list at every space. -/
def splitToks : List Char → List Char → List String
  | [], acc => [String.mk acc.reverse]
  | c :: cs, acc =>
    if c = ' ' then String.mk acc.reverse :: splitToks cs []
    else splitToks cs (c :: acc)

/-- Python str.upper() on an ASCII command verb. -/
def pyUpper (s : String) : String := String.mk (s.data.map Char.toUpper)

/-- Python str.split() on the space-separated command text: split at
whitespace and drop the empty tokens. -/
def pySplit (s : String) : List String :=
  (splitToks s.data []).filter (fun t => t ≠ "")

/-- Digit-list accumulator for pyToNat. -/
def digitsToNat : List Char → Nat → Option Nat
  | [], acc => some acc
  | c :: cs, acc =>
    if c.isDigit then digitsToNat cs (acc * 10 + (c.toNat - 48))
    else none

/-- Python int() on a numeric token; a non-numeric token raises
ValueError in the caller. The embedding covers the non-negative numerals
the protocol uses. -/
def pyToNat (s : String) : Option Nat :=
  if s.data = [] then none else digitsToNat s.data 0

/-- int(split_msg[2]) with the IndexError default of 0; a non-numeric
token raises ValueError (uncaught in the source). -/
def parseOffset (rest : List String) : Except PyErr Nat :=
  match rest[0]? with
  | none => Except.ok 0
  | some s =>
    match pyToNat s with
    | some n => Except.ok n
    | none => Except.error PyErr.valueError

/-- int(split_msg[3]); on IndexError the size defaults to the catalog
entry, whose absence raises an uncaught KeyError. -/
def parseSize (catalog : List (String × Nat)) (file_name : String)
    (rest : List String) : Except PyErr Nat :=
  match rest[1]? with
  | some s =>
    match pyToNat s with
    | some n => Except.ok n
    | none => Except.error PyErr.valueError
  | none =>
    match dictGet catalog file_name with
    | some n => Except.ok n
    | none => Except.error PyErr.keyError

/-- Server._process_client_message: dispatch on the first token of the
message; an empty message raises IndexError at split_msg[0]. -/
def processClientMessage (catalog : List (String × Nat))
    (disk : String → Option (List Nat)) (message : String) : SrvOut :=
  match pySplit message with
  | [] => ⟨[], some PyErr.indexError, []⟩
  | verb :: args =>
    if pyUpper verb = "LIST" then listOut catalog
    else if pyUpper verb = "QUIT" then ⟨[strBytes "221 Goodbye!"], none, []⟩
    else if pyUpper verb = "RETR" then
      match args with
      | [] =>
        ⟨[strBytes "501 Syntax error: Expected file name after RETR command"],
          none, []⟩
      | file_name :: rest =>
        match parseOffset rest with
        | Except.error e => ⟨[], some e, []⟩
        | Except.ok offset =>
          match parseSize catalog file_name rest with
          | Except.error e => ⟨[], some e, []⟩
          | Except.ok size => retr catalog disk file_name offset size
    else
      ⟨[strBytes ("501 Syntax error: Unknown command " ++ message)], none, []⟩

lemma retrLoop_eq_aux (content : List Nat) (offset size : Nat) :
    ∀ k total, size - total ≤ k →
      retrLoop content offset size total =
        (pyChunks ((content.drop (offset + total)).take (size - total)),
          total + ((content.drop (offset + total)).take (size - total)).length) := by
  intro k
  induction k with
  | zero =>
    intro total hk
    have hz : size - total = 0 := Nat.le_zero.mp hk
    have hd : readData content offset size total = [] := by
      simp [readData, hz]
    rw [retrLoop.eq_def, if_pos hd, hz]
    simp [pyChunks_nil]
  | succ k ih =>
    intro total hk
    have hBS : 0 < BUFFER_SIZE := by norm_num [BUFFER_SIZE]
    have hDX : readData content offset size total =
        (content.drop (offset + total)).take (min BUFFER_SIZE (size - total)) := rfl
    have hdata :
        ((content.drop (offset + total)).take (size - total)).take BUFFER_SIZE =
          readData content offset size total := by
      rw [List.take_take]
      rfl
    have hdlen : (readData content offset size total).length =
        min (min BUFFER_SIZE (size - total)) (content.drop (offset + total)).length := by
      rw [hDX, List.length_take]
    have hLlen : ((content.drop (offset + total)).take (size - total)).length =
        min (size - total) (content.drop (offset + total)).length :=
      List.length_take _ _
    by_cases hd : readData content offset size total = []
    · have hLnil : (content.drop (offset + total)).take (size - total) = [] := by
        have h0 := hdata.trans hd
        rcases List.take_eq_nil_iff.mp h0 with h | h
        · exact absurd h (by omega)
        · exact h
      rw [retrLoop.eq_def, if_pos hd, hLnil]
      simp [pyChunks_nil]
    · have hLne : (content.drop (offset + total)).take (size - total) ≠ [] := by
        intro h0
        apply hd
        rw [← hdata, h0]
        simp
      have hdpos : 0 < (readData content offset size total).length :=
        List.length_pos.mpr hd
      by_cases hstop : size ≤ total + (readData content offset size total).length
      · have hdl : (readData content offset size total).length = size - total := by
          omega
        have hstLe : size - total ≤ BUFFER_SIZE := by omega
        have hXge : size - total ≤ (content.drop (offset + total)).length := by omega
        have hLlenB : ((content.drop (offset + total)).take (size - total)).length ≤
            BUFFER_SIZE := by omega
        have hdataL : readData content offset size total =
            (content.drop (offset + total)).take (size - total) := by
          rw [← hdata]
          exact List.take_of_length_le hLlenB
        rw [retrLoop.eq_def, if_neg hd, if_pos hstop]
        have hchunks : pyChunks ((content.drop (offset + total)).take (size - total)) =
            [(content.drop (offset + total)).take (size - total)] := by
          rw [pyChunks_cons _ hLne,
            List.take_of_length_le hLlenB,
            List.drop_eq_nil_of_le hLlenB,
            pyChunks_nil]
        rw [hchunks, hdataL]
      · have hbound : size - (total + (readData content offset size total).length) ≤ k := by
          omega
        have hX' : content.drop (offset + (total + (readData content offset size total).length)) =
            (content.drop (offset + total)).drop (readData content offset size total).length := by
          rw [List.drop_drop]
          congr 1
          omega
        have hcases : (readData content offset size total).length = BUFFER_SIZE ∨
            (readData content offset size total).length = (content.drop (offset + total)).length := by
          omega
        have hL' : (content.drop (offset + (total + (readData content offset size total).length))).take
              (size - (total + (readData content offset size total).length)) =
            ((content.drop (offset + total)).take (size - total)).drop BUFFER_SIZE := by
          rcases hcases with hcase | hcase
          · have hdt : ((content.drop (offset + total)).take (size - total)).drop
                BUFFER_SIZE =
                ((content.drop (offset + total)).drop BUFFER_SIZE).take
                  (size - total - BUFFER_SIZE) :=
              List.drop_take (size - total) BUFFER_SIZE (content.drop (offset + total))
            have harith : size - (total + BUFFER_SIZE) = size - total - BUFFER_SIZE := by
              omega
            rw [hX', hcase, harith]
            exact hdt.symm
          · have hnil1 : (content.drop (offset + total)).drop
                (readData content offset size total).length = [] := by
              rw [hcase]
              exact List.drop_eq_nil_of_le (le_refl _)
            have hnil2 : ((content.drop (offset + total)).take (size - total)).drop
                BUFFER_SIZE = [] := by
              apply List.drop_eq_nil_of_le
              omega
            rw [hX', hnil1, hnil2, List.take_nil]
        have hlensum : ((content.drop (offset + total)).take (size - total)).length =
            (readData content offset size total).length +
              (((content.drop (offset + total)).take (size - total)).drop BUFFER_SIZE).length := by
          rw [List.length_drop]
          omega
        rw [retrLoop.eq_def, if_neg hd, if_neg hstop]
        rw [ih _ hbound]
        rw [pyChunks_cons _ hLne, hdata, hL']
        simp only [Prod.mk.injEq, true_and]
        omega

lemma retrLoop_eq (content : List Nat) (offset size total : Nat) :
    retrLoop content offset size total =
      (pyChunks ((content.drop (offset + total)).take (size - total)),
        total + ((content.drop (offset + total)).take (size - total)).length) :=
  retrLoop_eq_aux content offset size (size - total) total (le_refl _)

lemma retrLoop_flatten (content : List Nat) (offset size : Nat) :
    ((retrLoop content offset size 0).1).flatten =
      (content.drop offset).take size := by
  rw [retrLoop_eq]
  simp [pyChunks_flatten]

/-- Reactor state of Server.run: the read-interest list (socket 0 is the
listening control socket), the write-interest list, and the client table
mapping each session socket to its pending decoded message. -/
structure RState where
  inputs : List Nat
  outputs : List Nat
  clients : List (Nat × Option String)
deriving DecidableEq, Repr

/-- State right after Server.run starts: only the control socket is
registered for read interest. -/
def initState : RState := ⟨[0], [], []⟩

/-- One readiness event delivered by select: a new connection on the
control socket, a client socket readable (none models a remote close, so
Server._recv returns None), a client socket writable, or a socket in the
error set. -/
inductive REvent
  | accept (sid : Nat)
  | clientRead (sid : Nat) (msg : Option String)
  | clientWrite (sid : Nat)
  | errEvent (sid : Nat)
deriving DecidableEq, Repr

def clientIds (s : RState) : List Nat := s.clients.map Prod.fst

/-- Store a message on one session of the client table. -/
def setMsg (clients : List (Nat × Option String)) (sid : Nat)
    (m : Option String) : List (Nat × Option String) :=
  clients.map fun p => if p.1 = sid then (p.1, m) else p

/-- Read the stored message of one session. -/
def lookupMsg : List (Nat × Option String) → Nat → Option (Option String)
  | [], _ => none
  | p :: rest, sid => if p.1 = sid then some p.2 else lookupMsg rest sid

/-- Server._remove_client: drop the session from both interest lists and
from the client table (list remove is a no-op when absent, matching the
caught ValueError). -/
def removeClient (s : RState) (sid : Nat) : RState :=
  ⟨s.inputs.erase sid, s.outputs.erase sid,
    s.clients.filter fun p => p.1 ≠ sid⟩

/-- Dispatch of one pending command on a writable session, with the
interest-set and client-table bookkeeping Server._process_client_message
performs: QUIT removes the session entirely; a dispatch whose handler
raises leaves the state untouched and kills the loop; otherwise the
message is cleared and the session leaves write interest only. -/
def dispatchWrite (catalog : List (String × Nat))
    (disk : String → Option (List Nat)) (s : RState) (sid : Nat)
    (m : String) : RState × Bool :=
  match pySplit m with
  | [] => (s, true)
  | verb :: _ =>
    if pyUpper verb = "QUIT" then (removeClient s sid, false)
    else if (processClientMessage catalog disk m).err.isSome then (s, true)
    else (⟨s.inputs, s.outputs.erase sid, setMsg s.clients sid none⟩, false)

/-- One step of the Server.run loop body for one readiness event. The
boolean reports whether an uncaught exception escaped the loop body this
step (which terminates the process). Accept registers a fresh socket for
read interest only; a readable client stores its decoded message and is
appended to write interest (and, as in the source, stays in read
interest); a writable client with a pending message is dispatched through
Server._process_client_message. -/
def rstep (catalog : List (String × Nat)) (disk : String → Option (List Nat))
    (s : RState) : REvent → RState × Bool
  | REvent.accept sid =>
    if sid = 0 ∨ sid ∈ clientIds s then (s, false)
    else (⟨s.inputs ++ [sid], s.outputs, s.clients ++ [(sid, none)]⟩, false)
  | REvent.clientRead sid msg =>
    if sid ∈ s.inputs ∧ sid ∈ clientIds s then
      match msg with
      | none => (s, true)
      | some m =>
        (⟨s.inputs, s.outputs ++ [sid], setMsg s.clients sid (some m)⟩, false)
    else (s, false)
  | REvent.clientWrite sid =>
    if sid ∈ s.outputs then
      match lookupMsg s.clients sid with
      | some (some m) => dispatchWrite catalog disk s sid m
      | _ => (s, false)
    else (s, false)
  | REvent.errEvent sid =>
    if sid ∈ clientIds s then (removeClient s sid, false) else (s, false)

/-- The Server.run loop over a sequence of readiness events; once a step
raises (boolean true) the loop is gone and no further event is processed. -/
def reactorFold (catalog : List (String × Nat))
    (disk : String → Option (List Nat)) :
    RState × Bool → List REvent → RState × Bool
  | sb, [] => sb
  | (s, true), _ :: _ => (s, true)
  | (s, false), e :: rest => reactorFold catalog disk (rstep catalog disk s e) rest

/-- The interest-set bookkeeping that actually holds in the source: every
open session stays in the read-interest list, and it is also in the
write-interest list whenever it holds a pending command. -/
def sessionInv (s : RState) : Prop :=
  ∀ sid m, (sid, m) ∈ s.clients →
    sid ∈ s.inputs ∧ (m ≠ none → sid ∈ s.outputs)

/-- Client._download partition: divmod(file_size, 5) then
divmod(whole + quotient, 3); three chunks of whole + first_3_chunks and a
last chunk of whole + last_chunk. -/
def chunkSizes (file_size : Nat) : List Nat :=
  [file_size / 5 + (file_size / 5 + file_size % 5) / 3,
   file_size / 5 + (file_size / 5 + file_size % 5) / 3,
   file_size / 5 + (file_size / 5 + file_size % 5) / 3,
   file_size / 5 + (file_size / 5 + file_size % 5) % 3]

/-- offset = sum(chunk_sizes[:chunk_order]). -/
def chunkOffset (file_size i : Nat) : Nat :=
  ((chunkSizes file_size).take i).sum

/-- Client._handle_chunk receive loop: the frames after the 150 reply are
consumed in order and concatenated until the first frame whose payload
equals the EOF bytes; the range buffer is what was accumulated before it. -/
def workerBuffer (content : List Nat) (offset size : Nat) : List Nat :=
  (((retrLoop content offset size 0).1 ++ [EOFbytes]).takeWhile
    (fun f => f ≠ EOFbytes)).flatten

/-- The buffer each range worker stores at its own chunk_order index. -/
def downloadBuffers (file : List Nat) (i : Fin 4) : List Nat :=
  workerBuffer file (chunkOffset file.length i.val)
    ((chunkSizes file.length).getD i.val 0)

/-- file_data starts as four empty buffers; each finishing worker writes
its buffer at its own index, in completion order. -/
def applyWrites (bufs : Fin 4 → List Nat) (order : List (Fin 4)) :
    Fin 4 → List Nat :=
  order.foldl (fun acc o => Function.update acc o (bufs o)) fun _ => []

/-- The joined output written by Client._download: the four buffers
concatenated in ascending chunk_order after all workers were joined,
where order is the completion order of the workers. -/
def downloadedBytes (file : List Nat) (order : List (Fin 4)) : List Nat :=
  applyWrites (downloadBuffers file) order 0 ++
  applyWrites (downloadBuffers file) order 1 ++
  applyWrites (downloadBuffers file) order 2 ++
  applyWrites (downloadBuffers file) order 3

lemma getFileStatus_pass (catalog : List (String × Nat)) (file_name : String)
    (h : ¬(catalog ≠ [] ∧ dictGet catalog file_name = none)) :
    getFileStatus catalog file_name = (true, some (dataPath file_name), []) := by
  unfold getFileStatus
  rw [if_neg h]

lemma takeWhile_stops (fs : List (List Nat)) (h : EOFbytes ∉ fs) :
    ((fs ++ [EOFbytes]).takeWhile fun f => f ≠ EOFbytes) = fs := by
  induction fs with
  | nil => simp [List.takeWhile]
  | cons a t ih =>
    have ha : a ≠ EOFbytes := fun e => h (by simp [e])
    have ht : EOFbytes ∉ t := fun e => h (by simp [e])
    simp only [List.cons_append, List.takeWhile_cons]
    rw [if_pos (by simp [ha]), ih ht]

lemma workerBuffer_eq (content : List Nat) (offset size : Nat)
    (h : EOFbytes ∉ (retrLoop content offset size 0).1) :
    workerBuffer content offset size = (content.drop offset).take size := by
  unfold workerBuffer
  rw [takeWhile_stops _ h, retrLoop_flatten]

lemma applyWrites_not_mem (bufs : Fin 4 → List Nat) :
    ∀ (order : List (Fin 4)) (init : Fin 4 → List Nat) (i : Fin 4),
      i ∉ order →
      order.foldl (fun acc o => Function.update acc o (bufs o)) init i = init i := by
  intro order
  induction order with
  | nil => intro init i _; rfl
  | cons o rest ih =>
    intro init i hi
    have hio : i ≠ o := fun e => hi (by simp [e])
    have hirest : i ∉ rest := fun e => hi (by simp [e])
    show rest.foldl _ (Function.update init o (bufs o)) i = init i
    rw [ih (Function.update init o (bufs o)) i hirest]
    exact Function.update_noteq hio _ _

lemma applyWrites_mem (bufs : Fin 4 → List Nat) :
    ∀ (order : List (Fin 4)) (init : Fin 4 → List Nat) (i : Fin 4),
      i ∈ order →
      order.foldl (fun acc o => Function.update acc o (bufs o)) init i = bufs i := by
  intro order
  induction order with
  | nil => intro init i hi; exact absurd hi (List.not_mem_nil i)
  | cons o rest ih =>
    intro init i hi
    show rest.foldl _ (Function.update init o (bufs o)) i = bufs i
    by_cases hir : i ∈ rest
    · exact ih _ i hir
    · have hio : i = o := by
        rcases List.mem_cons.mp hi with h | h
        · exact h
        · exact absurd h hir
      subst hio
      rw [applyWrites_not_mem bufs rest _ i hir]
      exact Function.update_same i _ init

lemma chunkSizes_sum (S : Nat) : (chunkSizes S).sum = S := by
  simp only [chunkSizes, List.sum_cons, List.sum_nil]
  omega

lemma take_four_concat (l : List Nat) (a b c d : Nat)
    (h : a + (b + (c + d)) = l.length) :
    l.take a ++ ((l.drop a).take b ++ ((l.drop (a + b)).take c ++
      (l.drop (a + (b + c))).take d)) = l := by
  have h3 : a + (b + c) = a + b + c := by omega
  rw [h3]
  rw [← List.append_assoc (l.take a)]
  rw [← List.take_add l a b]
  rw [← List.append_assoc (l.take (a + b))]
  rw [← List.take_add l (a + b) c]
  rw [← List.take_add l (a + b + c) d]
  have h4 : a + b + c + d = l.length := by omega
  rw [h4, List.take_length]

lemma retr_ok (catalog : List (String × Nat)) (disk : String → Option (List Nat))
    (file_name : String) (content : List Nat) (offset size : Nat)
    (hpass : ¬(catalog ≠ [] ∧ dictGet catalog file_name = none))
    (hdisk : disk (dataPath file_name) = some content)
    (hsz : size ≠ 0) :
    retr catalog disk file_name offset size =
      ⟨[strBytes "150 File status ok"] ++ (retrLoop content offset size 0).1 ++
          [EOFbytes] ++ [strBytes "226 Transfer complete"],
        none, [dataPath file_name]⟩ := by
  unfold retr
  rw [getFileStatus_pass catalog file_name hpass, hdisk]
  simp only [if_neg hsz]
  simp

lemma retr_zero (catalog : List (String × Nat)) (disk : String → Option (List Nat))
    (file_name : String) (content : List Nat) (offset : Nat)
    (hpass : ¬(catalog ≠ [] ∧ dictGet catalog file_name = none))
    (hdisk : disk (dataPath file_name) = some content) :
    retr catalog disk file_name offset 0 =
      ⟨[strBytes "150 File status ok", EOFbytes],
        some PyErr.zeroDivisionError, [dataPath file_name]⟩ := by
  unfold retr
  rw [getFileStatus_pass catalog file_name hpass, hdisk]
  simp only [if_pos rfl]
  rw [retrLoop_eq]
  simp [pyChunks_nil]

lemma retr_reject (catalog : List (String × Nat)) (disk : String → Option (List Nat))
    (file_name : String) (offset size : Nat)
    (hfail : catalog ≠ [] ∧ dictGet catalog file_name = none) :
    retr catalog disk file_name offset size =
      ⟨[strBytes ("550 File unavailable: " ++ file_name)], none, []⟩ := by
  unfold retr getFileStatus
  rw [if_pos hfail]

lemma sessionInv_removeClient (s : RState) (sid : Nat) (h : sessionInv s) :
    sessionInv (removeClient s sid) := by
  intro sid' m' hmem
  simp only [removeClient, List.mem_filter, decide_eq_true_eq, ne_eq] at hmem
  obtain ⟨hmem', hne⟩ := hmem
  obtain ⟨hin, hout⟩ := h sid' m' hmem'
  exact ⟨(List.mem_erase_of_ne hne).mpr hin,
    fun hm => (List.mem_erase_of_ne hne).mpr (hout hm)⟩

lemma sessionInv_rstep (catalog : List (String × Nat))
    (disk : String → Option (List Nat)) (s : RState) (e : REvent)
    (h : sessionInv s) : sessionInv (rstep catalog disk s e).1 := by
  cases e with
  | accept sid =>
    by_cases hg : sid = 0 ∨ sid ∈ clientIds s
    · simp only [rstep, if_pos hg]
      exact h
    · simp only [rstep, if_neg hg]
      intro sid' m' hmem
      rcases List.mem_append.mp hmem with hm | hm
      · obtain ⟨hin, hout⟩ := h sid' m' hm
        exact ⟨List.mem_append_left _ hin, hout⟩
      · have hpair : sid' = sid ∧ m' = none := by simpa using hm
        obtain ⟨rfl, rfl⟩ := hpair
        exact ⟨List.mem_append_right _ (by simp), fun hm' => absurd rfl hm'⟩
  | clientRead sid msg =>
    by_cases hg : sid ∈ s.inputs ∧ sid ∈ clientIds s
    · cases msg with
      | none =>
        simp only [rstep, if_pos hg]
        exact h
      | some m =>
        simp only [rstep, if_pos hg]
        intro sid' m' hmem
        simp only [setMsg, List.mem_map] at hmem
        obtain ⟨p, hp, hpe⟩ := hmem
        by_cases hps : p.1 = sid
        · rw [if_pos hps] at hpe
          have h1 : p.1 = sid' := congrArg Prod.fst hpe
          have h2 : m' = some m := (congrArg Prod.snd hpe).symm
          obtain ⟨hin, _⟩ := h p.1 p.2 hp
          have hss : sid' = sid := h1 ▸ hps
          subst h2
          exact ⟨h1 ▸ hin,
            fun _ => List.mem_append_right _ (by simp [hss])⟩
        · rw [if_neg hps] at hpe
          subst hpe
          obtain ⟨hin, hout⟩ := h sid' m' hp
          exact ⟨hin, fun hm => List.mem_append_left _ (hout hm)⟩
    · simp only [rstep, if_neg hg]
      exact h
  | clientWrite sid =>
    by_cases hg : sid ∈ s.outputs
    · simp only [rstep, if_pos hg]
      rcases hlk : lookupMsg s.clients sid with _ | mm
      · exact h
      · rcases mm with _ | m
        · exact h
        · show sessionInv (dispatchWrite catalog disk s sid m).1
          unfold dispatchWrite
          rcases hsp : pySplit m with _ | ⟨verb, restv⟩
          · exact h
          · show sessionInv ((if pyUpper verb = "QUIT" then
                (removeClient s sid, false)
              else if (processClientMessage catalog disk m).err.isSome then
                (s, true)
              else (⟨s.inputs, s.outputs.erase sid,
                setMsg s.clients sid none⟩, false)).1)
            by_cases hq : pyUpper verb = "QUIT"
            · rw [if_pos hq]
              exact sessionInv_removeClient s sid h
            · rw [if_neg hq]
              by_cases he : (processClientMessage catalog disk m).err.isSome
              · rw [if_pos he]
                exact h
              · rw [if_neg he]
                intro sid' m' hmem
                simp only [setMsg, List.mem_map] at hmem
                obtain ⟨p, hp, hpe⟩ := hmem
                by_cases hps : p.1 = sid
                · rw [if_pos hps] at hpe
                  have h1 : p.1 = sid' := congrArg Prod.fst hpe
                  have h2 : m' = none := (congrArg Prod.snd hpe).symm
                  obtain ⟨hin, _⟩ := h p.1 p.2 hp
                  subst h2
                  exact ⟨h1 ▸ hin, fun hm => absurd rfl hm⟩
                · rw [if_neg hps] at hpe
                  subst hpe
                  have hns : sid' ≠ sid := by simpa using hps
                  obtain ⟨hin, hout⟩ := h sid' m' hp
                  exact ⟨hin,
                    fun hm => (List.mem_erase_of_ne hns).mpr (hout hm)⟩
    · simp only [rstep, if_neg hg]
      exact h
  | errEvent sid =>
    by_cases hg : sid ∈ clientIds s
    · simp only [rstep, if_pos hg]
      exact sessionInv_removeClient s sid h
    · simp only [rstep, if_neg hg]
      exact h

lemma sessionInv_fold (catalog : List (String × Nat))
    (disk : String → Option (List Nat)) :
    ∀ (evs : List REvent) (s : RState) (b : Bool), sessionInv s →
      sessionInv (reactorFold catalog disk (s, b) evs).1 := by
  intro evs
  induction evs with
  | nil =>
    intro s b h
    cases b <;> exact h
  | cons e rest ih =>
    intro s b h
    cases b with
    | true => exact h
    | false =>
      exact ih (rstep catalog disk s e).1 (rstep catalog disk s e).2
        (sessionInv_rstep catalog disk s e h)

lemma sessionInv_initState : sessionInv initState := by
  intro sid m hmem
  simp [initState] at hmem

lemma reactorFold_halt (catalog : List (String × Nat))
    (disk : String → Option (List Nat)) (s : RState) :
    ∀ evs, reactorFold catalog disk (s, true) evs = (s, true) := by
  intro evs
  cases evs with
  | nil => rfl
  | cons e rest => rfl

lemma reactorFold_append_of_crashed (catalog : List (String × Nat))
    (disk : String → Option (List Nat)) :
    ∀ (evs rest : List REvent) (sb : RState × Bool),
      (reactorFold catalog disk sb evs).2 = true →
      reactorFold catalog disk sb (evs ++ rest) =
        reactorFold catalog disk sb evs := by
  intro evs
  induction evs with
  | nil =>
    intro rest sb h
    obtain ⟨s, b⟩ := sb
    cases b with
    | true =>
      simp only [List.nil_append]
      rw [reactorFold_halt catalog disk s rest]
      rfl
    | false =>
      have hf : reactorFold catalog disk (s, false) [] = (s, false) := rfl
      rw [hf] at h
      exact absurd h (by simp)
  | cons e tl ih =>
    intro rest sb h
    obtain ⟨s, b⟩ := sb
    cases b with
    | true =>
      rw [List.cons_append, reactorFold_halt catalog disk s,
        reactorFold_halt catalog disk s]
    | false =>
      show reactorFold catalog disk (rstep catalog disk s e) (tl ++ rest) =
        reactorFold catalog disk (rstep catalog disk s e) tl
      exact ih rest (rstep catalog disk s e) h

/-- Fixture: the catalog of the spec scenario, one 10-byte file. -/
def catalog10 : List (String × Nat) := [("a.bin", 10)]

/-- Fixture: the 10 bytes of a.bin on disk. -/
def content10 : List Nat := [100, 101, 102, 103, 104, 105, 106, 107, 108, 109]

/-- Fixture: a disk holding exactly a.bin in the data directory. -/
def disk10 : String → Option (List Nat) :=
  fun p => if p = dataPath "a.bin" then some content10 else none

/-- Fixture: a disk with no files at all. -/
def diskEmpty : String → Option (List Nat) := fun _ => none

/-- Fixture: a disk holding f.bin while the catalog is empty. -/
def diskF : String → Option (List Nat) :=
  fun p => if p = dataPath "f.bin" then some [1, 2, 3] else none

/-- Fixture: a 12-byte file whose first three bytes are the EOF sentinel
bytes; the 4-worker partition of 12 bytes is four ranges of 3 bytes. -/
def file12 : List Nat := EOFbytes ++ [0, 1, 2, 3, 4, 5, 6, 7, 8]

/-- Fixture: a plain 10-byte file. -/
def file10 : List Nat := [20, 21, 22, 23, 24, 25, 26, 27, 28, 29]

/-- C2: for every byte payload p (empty and EOF-containing payloads
included), decoding the encoding of p yields exactly p for every way of
splitting the encoded bytes into non-empty delivery chunks: the
incremental decoder buffers the 4 header bytes, parses the big-endian
length, buffers exactly that many payload bytes, and returns p with
nothing left over. -/
theorem c2_frame_roundtrip (p : List Nat) (stream : List (List Nat))
    (hlen : p.length < 4294967296)
    (hchunks : ∀ c ∈ stream, c ≠ [])
    (hdeliver : stream.flatten = encode p) :
    ∃ rest, recvRaw stream = (p.length, some p, rest) ∧ rest.flatten = [] := by
  have hflen : stream.flatten.length = 4 + p.length := by
    rw [hdeliver]
    simp only [encode, toBytes4, List.length_append, List.length_cons,
      List.length_nil]
  obtain ⟨s1, h1, h1flat, h1ne⟩ :=
    recvN_spec 4 4 stream (le_refl _) hchunks (by omega)
  have hheader : stream.flatten.take 4 = toBytes4 p.length := by
    rw [hdeliver]
    rfl
  have hdrop4 : stream.flatten.drop 4 = p := by
    rw [hdeliver]
    rfl
  have hs1len : p.length ≤ s1.flatten.length := by
    rw [h1flat, hdrop4]
  obtain ⟨s2, h2, h2flat, _⟩ :=
    recvN_spec p.length p.length s1 (le_refl _) h1ne hs1len
  have hfrom : fromBytes4 (stream.flatten.take 4) = p.length := by
    rw [hheader]
    exact fromBytes4_toBytes4 _ hlen
  have h2' : recvN s1 p.length = some (p, s2) := by
    rw [h2, h1flat, hdrop4, List.take_length]
  refine ⟨s2, ?_, ?_⟩
  · unfold recvRaw
    simp only [h1, hfrom, h2']
  · rw [h2flat, h1flat, hdrop4]
    exact List.drop_length p

/-- Witness for C2 at the payload EOF delivered in four ragged chunks. -/
theorem c2_witness :
    ∃ rest, recvRaw [[0], [0], [0, 3, 69], [79, 70]] =
      (EOFbytes.length, some EOFbytes, rest) ∧ rest.flatten = [] :=
  c2_frame_roundtrip EOFbytes [[0], [0], [0, 3, 69], [79, 70]]
    (by decide) (by decide) (by decide)

/-- C3: the range partition computed by Client._download from
divmod(file_size, 5) and divmod(whole + quotient, 3), with offsets taken
as prefix sums, consists of four ranges that are contiguous, pairwise
non-overlapping, cover the interval from 0 to the file size exactly, and
have lengths summing to the file size. The code fixes the worker count at
four. -/
theorem c3_partition_exact (S : Nat) :
    (chunkSizes S).length = 4 ∧
    (chunkSizes S).sum = S ∧
    (∀ i, i + 1 ≤ 3 →
      chunkOffset S (i + 1) = chunkOffset S i + (chunkSizes S).getD i 0) ∧
    (∀ b, b < S ↔ ∃ i, i < 4 ∧ chunkOffset S i ≤ b ∧
      b < chunkOffset S i + (chunkSizes S).getD i 0) ∧
    (∀ i j b, i < 4 → j < 4 →
      chunkOffset S i ≤ b → b < chunkOffset S i + (chunkSizes S).getD i 0 →
      chunkOffset S j ≤ b → b < chunkOffset S j + (chunkSizes S).getD j 0 →
      i = j) := by
  have hoff0 : chunkOffset S 0 = 0 := rfl
  have hoff1 : chunkOffset S 1 = S / 5 + (S / 5 + S % 5) / 3 := rfl
  have hoff2 : chunkOffset S 2 =
      (S / 5 + (S / 5 + S % 5) / 3) + (S / 5 + (S / 5 + S % 5) / 3) := rfl
  have hoff3 : chunkOffset S 3 =
      (S / 5 + (S / 5 + S % 5) / 3) + ((S / 5 + (S / 5 + S % 5) / 3) +
        (S / 5 + (S / 5 + S % 5) / 3)) := rfl
  have hg0 : (chunkSizes S).getD 0 0 = S / 5 + (S / 5 + S % 5) / 3 := rfl
  have hg1 : (chunkSizes S).getD 1 0 = S / 5 + (S / 5 + S % 5) / 3 := rfl
  have hg2 : (chunkSizes S).getD 2 0 = S / 5 + (S / 5 + S % 5) / 3 := rfl
  have hg3 : (chunkSizes S).getD 3 0 = S / 5 + (S / 5 + S % 5) % 3 := rfl
  have hsum := chunkSizes_sum S
  simp only [chunkSizes, List.sum_cons, List.sum_nil] at hsum
  refine ⟨rfl, chunkSizes_sum S, ?_, ?_, ?_⟩
  · intro i hi
    have hi' : i ≤ 2 := by omega
    interval_cases i
    · rw [hoff1, hoff0, hg0]
      omega
    · rw [hoff2, hoff1, hg1]
    · rw [hoff3, hoff2, hg2]
      omega
  · intro b
    constructor
    · intro hb
      by_cases h1 : b < S / 5 + (S / 5 + S % 5) / 3
      · exact ⟨0, by omega, by rw [hoff0]; omega, by rw [hoff0, hg0]; omega⟩
      · by_cases h2 : b < (S / 5 + (S / 5 + S % 5) / 3) +
            (S / 5 + (S / 5 + S % 5) / 3)
        · exact ⟨1, by omega, by rw [hoff1]; omega, by rw [hoff1, hg1]; omega⟩
        · by_cases h3 : b < (S / 5 + (S / 5 + S % 5) / 3) +
              ((S / 5 + (S / 5 + S % 5) / 3) + (S / 5 + (S / 5 + S % 5) / 3))
          · exact ⟨2, by omega, by rw [hoff2]; omega,
              by rw [hoff2, hg2]; omega⟩
          · exact ⟨3, by omega, by rw [hoff3]; omega,
              by rw [hoff3, hg3]; omega⟩
    · rintro ⟨i, hi, hlo, hhi⟩
      interval_cases i
      · rw [hoff0, hg0] at hhi
        omega
      · rw [hoff1] at hlo
        rw [hoff1, hg1] at hhi
        omega
      · rw [hoff2] at hlo
        rw [hoff2, hg2] at hhi
        omega
      · rw [hoff3] at hlo
        rw [hoff3, hg3] at hhi
        omega
  · intro i j b hi hj hlo1 hhi1 hlo2 hhi2
    interval_cases i <;> interval_cases j <;>
      simp only [hoff0, hoff1, hoff2, hoff3, hg0, hg1, hg2, hg3]
        at hlo1 hhi1 hlo2 hhi2 <;>
      omega

/-- Witness for C3 at the spec scenario file size 10: the partition sums
to 10 and every byte position, such as 4, lies in exactly one range. -/
theorem c3_witness : (chunkSizes 10).sum = 10 ∧ 4 < 10 :=
  ⟨(c3_partition_exact 10).2.1,
    ((c3_partition_exact 10).2.2.2.1 4).mpr ⟨2, by decide, by decide, by decide⟩⟩

/-- C1 as stated is false at length 0: the request offset 0, length 0 on
the 10-byte cataloged file satisfies the stated bounds, yet the progress
print divides by the zero length after the EOF sentinel, so the handler
raises and the 226 completion frame is never sent. -/
theorem c1_counterexample :
    0 + 0 ≤ content10.length ∧
    (retr catalog10 disk10 "a.bin" 0 0).err = some PyErr.zeroDivisionError ∧
    strBytes "226 Transfer complete" ∉ (retr catalog10 disk10 "a.bin" 0 0).frames := by
  have hz := retr_zero catalog10 disk10 "a.bin" content10 0 (by decide) (by decide)
  refine ⟨by decide, ?_, ?_⟩
  · rw [hz]
  · rw [hz]
    decide

/-- C1 amended: for every RETR of a cataloged file with offset and length
satisfying offset + length at most the file size and length at least 1,
the server replies with the 150 frame, then data frames whose
concatenated payloads are exactly the requested byte range (totalling
exactly length bytes, never more), then the 3-byte EOF sentinel frame,
then the 226 completion frame, raising nothing. -/
theorem c1_retr_range_transfer (catalog : List (String × Nat))
    (disk : String → Option (List Nat)) (file_name : String)
    (content : List Nat) (sz offset len : Nat)
    (hcat : dictGet catalog file_name = some sz)
    (hdisk : disk (dataPath file_name) = some content)
    (hrange : offset + len ≤ content.length)
    (hpos : 1 ≤ len) :
    retr catalog disk file_name offset len =
      ⟨[strBytes "150 File status ok"] ++ (retrLoop content offset len 0).1 ++
          [EOFbytes] ++ [strBytes "226 Transfer complete"],
        none, [dataPath file_name]⟩ ∧
    ((retrLoop content offset len 0).1).flatten = (content.drop offset).take len ∧
    ((retrLoop content offset len 0).1).flatten.length = len := by
  have hpass : ¬(catalog ≠ [] ∧ dictGet catalog file_name = none) := by
    rintro ⟨h1, h2⟩
    rw [hcat] at h2
    exact Option.noConfusion h2
  refine ⟨retr_ok catalog disk file_name content offset len hpass hdisk (by omega),
    retrLoop_flatten content offset len, ?_⟩
  rw [retrLoop_flatten, List.length_take, List.length_drop]
  omega

/-- Witness for C1 at the spec scenario: catalog a.bin of size 10 and the
request RETR a.bin 3 4. -/
theorem c1_witness :
    retr catalog10 disk10 "a.bin" 3 4 =
      ⟨[strBytes "150 File status ok"] ++ (retrLoop content10 3 4 0).1 ++
          [EOFbytes] ++ [strBytes "226 Transfer complete"],
        none, [dataPath "a.bin"]⟩ ∧
    ((retrLoop content10 3 4 0).1).flatten = (content10.drop 3).take 4 ∧
    ((retrLoop content10 3 4 0).1).flatten.length = 4 :=
  c1_retr_range_transfer catalog10 disk10 "a.bin" content10 10 3 4
    (by decide) (by decide) (by decide) (by decide)

/-- C10: for every RETR of a permitted file that exists on disk with
resolved length 0, the server sends the 150 frame and the EOF sentinel,
then raises ZeroDivisionError in the progress computation, so the 226
completion frame is never sent and the error escapes the handler. -/
theorem c10_zero_length_division (catalog : List (String × Nat))
    (disk : String → Option (List Nat)) (file_name : String)
    (content : List Nat) (sz offset : Nat)
    (hcat : dictGet catalog file_name = some sz)
    (hdisk : disk (dataPath file_name) = some content) :
    retr catalog disk file_name offset 0 =
      ⟨[strBytes "150 File status ok", EOFbytes],
        some PyErr.zeroDivisionError, [dataPath file_name]⟩ ∧
    strBytes "226 Transfer complete" ∉ (retr catalog disk file_name offset 0).frames := by
  have hpass : ¬(catalog ≠ [] ∧ dictGet catalog file_name = none) := by
    rintro ⟨h1, h2⟩
    rw [hcat] at h2
    exact Option.noConfusion h2
  have hz := retr_zero catalog disk file_name content offset hpass hdisk
  refine ⟨hz, ?_⟩
  rw [hz]
  show strBytes "226 Transfer complete" ∉ [strBytes "150 File status ok", EOFbytes]
  decide

/-- Witness for C10: zero-length RETR of the cataloged 10-byte file. -/
theorem c10_witness :
    retr catalog10 disk10 "a.bin" 5 0 =
      ⟨[strBytes "150 File status ok", EOFbytes],
        some PyErr.zeroDivisionError, [dataPath "a.bin"]⟩ ∧
    strBytes "226 Transfer complete" ∉ (retr catalog10 disk10 "a.bin" 5 0).frames :=
  c10_zero_length_division catalog10 disk10 "a.bin" content10 10 5
    (by decide) (by decide)

/-- C5: on the non-empty catalog holding only a.bin, a RETR for an absent
name with explicit offset and length is answered 550 with no disk read,
exactly as claimed; but the same RETR without an explicit length reaches
the default-length lookup on the catalog, which raises an uncaught
KeyError before any reply is sent, contradicting the claim that the
server always replies 550. -/
theorem c5_missing_file_dispatch :
    processClientMessage catalog10 diskEmpty "RETR missing.bin" =
      ⟨[], some PyErr.keyError, []⟩ ∧
    processClientMessage catalog10 diskEmpty "RETR missing.bin 0 5" =
      ⟨[strBytes "550 File unavailable: missing.bin"], none, []⟩ := by
  constructor <;> decide

/-- C6 as stated is false: RETR a.bin 3 999 violates the invariant
offset + length at most the catalog size 10, yet the server performs no
check, replies 150, and opens the file on disk. -/
theorem c6_counterexample :
    10 < 3 + 999 ∧
    dictGet catalog10 "a.bin" = some 10 ∧
    (processClientMessage catalog10 disk10 "RETR a.bin 3 999").reads =
      [dataPath "a.bin"] ∧
    (processClientMessage catalog10 disk10 "RETR a.bin 3 999").frames.head? =
      some (strBytes "150 File status ok") := by
  have hpm : processClientMessage catalog10 disk10 "RETR a.bin 3 999" =
      retr catalog10 disk10 "a.bin" 3 999 := rfl
  have hr := retr_ok catalog10 disk10 "a.bin" content10 3 999
    (by decide) (by decide) (by decide)
  refine ⟨by decide, by decide, ?_, ?_⟩
  · rw [hpm, hr]
  · rw [hpm, hr]
    rfl

/-- C6 amended: the server performs no offset or length validation at
all; any offset and length on a cataloged file are passed straight to
the disk read, whose result is capped at end of file, so the data frames
carry exactly (content.drop offset).take length and never bytes outside
the file, but a request whose range exceeds the catalog size is served
rather than rejected. -/
theorem c6_no_validation (catalog : List (String × Nat))
    (disk : String → Option (List Nat)) (file_name : String)
    (content : List Nat) (sz offset size : Nat)
    (hcat : dictGet catalog file_name = some sz)
    (hdisk : disk (dataPath file_name) = some content) :
    (retr catalog disk file_name offset size).reads = [dataPath file_name] ∧
    ((retrLoop content offset size 0).1).flatten =
      (content.drop offset).take size := by
  have hpass : ¬(catalog ≠ [] ∧ dictGet catalog file_name = none) := by
    rintro ⟨h1, h2⟩
    rw [hcat] at h2
    exact Option.noConfusion h2
  refine ⟨?_, retrLoop_flatten content offset size⟩
  by_cases hsz : size = 0
  · subst hsz
    rw [retr_zero catalog disk file_name content offset hpass hdisk]
  · rw [retr_ok catalog disk file_name content offset size hpass hdisk hsz]

/-- Witness for C6 amended at the over-long request RETR a.bin 3 999 on
the 10-byte file. -/
theorem c6_witness :
    (retr catalog10 disk10 "a.bin" 3 999).reads = [dataPath "a.bin"] ∧
    ((retrLoop content10 3 999 0).1).flatten = (content10.drop 3).take 999 :=
  c6_no_validation catalog10 disk10 "a.bin" content10 10 3 999
    (by decide) (by decide)

/-- C9 as stated is false in its serving clause: with an empty catalog
and f.bin present in the data directory, a RETR without explicit length
raises an uncaught KeyError on the empty catalog instead of serving the
file. -/
theorem c9_counterexample :
    diskF (dataPath "f.bin") = some [1, 2, 3] ∧
    processClientMessage [] diskF "RETR f.bin" = ⟨[], some PyErr.keyError, []⟩ := by
  constructor <;> decide

/-- C9 amended: with an empty catalog, LIST replies 550 File permissions
unavailable, the RETR permission check passes every file name (no 550
rejection), and a file present in the data directory is served when the
request carries an explicit non-zero length; only the default-length
form fails, with a KeyError on the empty catalog. -/
theorem c9_empty_catalog_semantics :
    listOut [] = ⟨[strBytes "550 File permissions unavailable"], none, []⟩ ∧
    (∀ file_name, getFileStatus [] file_name =
      (true, some (dataPath file_name), [])) ∧
    (∀ (disk : String → Option (List Nat)) (file_name : String)
        (content : List Nat) (offset size : Nat),
      disk (dataPath file_name) = some content → size ≠ 0 →
      retr [] disk file_name offset size =
        ⟨[strBytes "150 File status ok"] ++ (retrLoop content offset size 0).1 ++
            [EOFbytes] ++ [strBytes "226 Transfer complete"],
          none, [dataPath file_name]⟩) ∧
    (∀ file_name : String,
      parseSize [] file_name [] = Except.error PyErr.keyError) := by
  refine ⟨rfl, ?_, ?_, ?_⟩
  · intro file_name
    apply getFileStatus_pass
    simp
  · intro disk file_name content offset size hdisk hsz
    exact retr_ok [] disk file_name content offset size (by simp) hdisk hsz
  · intro file_name
    rfl

/-- Witness for C9 amended: f.bin served from the data directory under an
empty catalog with an explicit range. -/
theorem c9_witness :
    retr [] diskF "f.bin" 0 3 =
      ⟨[strBytes "150 File status ok"] ++ (retrLoop [1, 2, 3] 0 3 0).1 ++
          [EOFbytes] ++ [strBytes "226 Transfer complete"],
        none, [dataPath "f.bin"]⟩ :=
  c9_empty_catalog_semantics.2.2.1 diskF "f.bin" [1, 2, 3] 0 3
    (by decide) (by decide)

/-- C7 as stated is false: after accepting session 1 and reading its LIST
command, the session is in the read-interest list and the write-interest
list at the same time, because the loop appends the readable session to
the write set without removing it from the read set. -/
theorem c7_counterexample :
    1 ∈ (reactorFold [] diskEmpty (initState, false)
      [REvent.accept 1, REvent.clientRead 1 (some "LIST")]).1.inputs ∧
    1 ∈ (reactorFold [] diskEmpty (initState, false)
      [REvent.accept 1, REvent.clientRead 1 (some "LIST")]).1.outputs := by
  constructor <;> decide

/-- C7 amended: in every state the reactor loop can reach, an open
session is always in the read-interest list, and whenever it holds a
pending decoded command it is additionally in the write-interest list;
so a session is never in neither set, but it is in both sets between the
read and the dispatch of its command. -/
theorem c7_interest_set_invariant (catalog : List (String × Nat))
    (disk : String → Option (List Nat)) (evs : List REvent)
    (sid : Nat) (m : Option String)
    (hmem : (sid, m) ∈ (reactorFold catalog disk (initState, false) evs).1.clients) :
    sid ∈ (reactorFold catalog disk (initState, false) evs).1.inputs ∧
    (m ≠ none →
      sid ∈ (reactorFold catalog disk (initState, false) evs).1.outputs) :=
  sessionInv_fold catalog disk evs initState false sessionInv_initState sid m hmem

/-- Witness for C7 amended on the two-event trace of the counterexample
scenario. -/
theorem c7_witness :
    1 ∈ (reactorFold [] diskEmpty (initState, false)
      [REvent.accept 1, REvent.clientRead 1 (some "LIST")]).1.inputs ∧
    (some "LIST" ≠ none →
      1 ∈ (reactorFold [] diskEmpty (initState, false)
        [REvent.accept 1, REvent.clientRead 1 (some "LIST")]).1.outputs) :=
  c7_interest_set_invariant [] diskEmpty
    [REvent.accept 1, REvent.clientRead 1 (some "LIST")] 1 (some "LIST")
    (by decide)

/-- C8 as stated is false: an empty command frame on session 1 raises an
uncaught IndexError inside the dispatch, which terminates the reactor
loop. -/
theorem c8_counterexample :
    (reactorFold catalog10 diskEmpty (initState, false)
      [REvent.accept 1, REvent.accept 2, REvent.clientRead 1 (some ""),
        REvent.clientWrite 1]).2 = true := by
  decide

/-- C8 amended: a per-session dispatch failure is fatal to the whole
reactor: once the loop has crashed on some event sequence, appending any
further events (for the same or any other session) changes nothing, so
no other session is served again. -/
theorem c8_crash_halts_loop (catalog : List (String × Nat))
    (disk : String → Option (List Nat)) (evs rest : List REvent)
    (sb : RState × Bool)
    (h : (reactorFold catalog disk sb evs).2 = true) :
    reactorFold catalog disk sb (evs ++ rest) = reactorFold catalog disk sb evs :=
  reactorFold_append_of_crashed catalog disk evs rest sb h

/-- Witness for C8 amended: after the empty-frame crash of session 1,
the pending accept and LIST of session 2 are never processed. -/
theorem c8_witness :
    reactorFold catalog10 diskEmpty (initState, false)
        ([REvent.accept 1, REvent.clientRead 1 (some ""), REvent.clientWrite 1] ++
          [REvent.accept 2, REvent.clientRead 2 (some "LIST")]) =
      reactorFold catalog10 diskEmpty (initState, false)
        [REvent.accept 1, REvent.clientRead 1 (some ""), REvent.clientWrite 1] :=
  c8_crash_halts_loop catalog10 diskEmpty
    [REvent.accept 1, REvent.clientRead 1 (some ""), REvent.clientWrite 1]
    [REvent.accept 2, REvent.clientRead 2 (some "LIST")]
    (initState, false) (by decide)

/-- C4 as stated is false: on the 12-byte file whose first range is
exactly the bytes EOF, worker 0 mistakes its own 3-byte data frame for
the sentinel, stores an empty buffer, and the assembled output differs
from the source file even though every worker wrote its own index and
assembly is in ascending index order. -/
theorem c4_counterexample : downloadedBytes file12 [0, 1, 2, 3] ≠ file12 := by
  have h0 : applyWrites (downloadBuffers file12) [0, 1, 2, 3] 0 =
      downloadBuffers file12 0 :=
    applyWrites_mem _ _ _ 0 (by decide)
  have h1 : applyWrites (downloadBuffers file12) [0, 1, 2, 3] 1 =
      downloadBuffers file12 1 :=
    applyWrites_mem _ _ _ 1 (by decide)
  have h2 : applyWrites (downloadBuffers file12) [0, 1, 2, 3] 2 =
      downloadBuffers file12 2 :=
    applyWrites_mem _ _ _ 2 (by decide)
  have h3 : applyWrites (downloadBuffers file12) [0, 1, 2, 3] 3 =
      downloadBuffers file12 3 :=
    applyWrites_mem _ _ _ 3 (by decide)
  have hb : ∀ i : Fin 4, downloadBuffers file12 i =
      ((pyChunks ((file12.drop (chunkOffset file12.length i.val)).take
          ((chunkSizes file12.length).getD i.val 0)) ++ [EOFbytes]).takeWhile
        (fun f => f ≠ EOFbytes)).flatten := by
    intro i
    show workerBuffer file12 (chunkOffset file12.length i.val)
      ((chunkSizes file12.length).getD i.val 0) = _
    unfold workerBuffer
    rw [retrLoop_eq]
    rfl
  unfold downloadedBytes
  rw [h0, h1, h2, h3, hb 0, hb 1, hb 2, hb 3]
  decide

/-- C4 amended: provided no data frame of any range is the exact 3-byte
sentinel EOF (which a range whose content lines up with a frame boundary
can produce), every completion ordering of the four range workers, each
writing only its own chunk index, yields after the join an assembly in
ascending index order that is byte-identical to the source file. -/
theorem c4_reassembly_order_independent (file : List Nat) (order : List (Fin 4))
    (hall : ∀ i : Fin 4, i ∈ order)
    (hnoeof : ∀ i : Fin 4, EOFbytes ∉
      (retrLoop file (chunkOffset file.length i.val)
        ((chunkSizes file.length).getD i.val 0) 0).1) :
    downloadedBytes file order = file := by
  have hw : ∀ i : Fin 4, applyWrites (downloadBuffers file) order i =
      downloadBuffers file i :=
    fun i => applyWrites_mem (downloadBuffers file) order (fun _ => []) i (hall i)
  have hb0 : downloadBuffers file 0 =
      file.take ((chunkSizes file.length).getD 0 0) := by
    have h := workerBuffer_eq file (chunkOffset file.length 0)
      ((chunkSizes file.length).getD 0 0) (hnoeof 0)
    rw [show downloadBuffers file 0 = workerBuffer file (chunkOffset file.length 0)
      ((chunkSizes file.length).getD 0 0) from rfl, h]
    rw [show chunkOffset file.length 0 = 0 from rfl, List.drop_zero]
  have hb1 : downloadBuffers file 1 =
      (file.drop ((chunkSizes file.length).getD 0 0)).take
        ((chunkSizes file.length).getD 1 0) := by
    have h := workerBuffer_eq file (chunkOffset file.length 1)
      ((chunkSizes file.length).getD 1 0) (hnoeof 1)
    exact h
  have hb2 : downloadBuffers file 2 =
      (file.drop ((chunkSizes file.length).getD 0 0 +
          (chunkSizes file.length).getD 1 0)).take
        ((chunkSizes file.length).getD 2 0) := by
    have h := workerBuffer_eq file (chunkOffset file.length 2)
      ((chunkSizes file.length).getD 2 0) (hnoeof 2)
    exact h
  have hb3 : downloadBuffers file 3 =
      (file.drop ((chunkSizes file.length).getD 0 0 +
          ((chunkSizes file.length).getD 1 0 +
            (chunkSizes file.length).getD 2 0))).take
        ((chunkSizes file.length).getD 3 0) := by
    have h := workerBuffer_eq file (chunkOffset file.length 3)
      ((chunkSizes file.length).getD 3 0) (hnoeof 3)
    exact h
  have hsum : (chunkSizes file.length).getD 0 0 +
      ((chunkSizes file.length).getD 1 0 +
        ((chunkSizes file.length).getD 2 0 +
          (chunkSizes file.length).getD 3 0)) = file.length := by
    have h := chunkSizes_sum file.length
    simp only [chunkSizes, List.sum_cons, List.sum_nil] at h
    have hg0 : (chunkSizes file.length).getD 0 0 =
        file.length / 5 + (file.length / 5 + file.length % 5) / 3 := rfl
    have hg1 : (chunkSizes file.length).getD 1 0 =
        file.length / 5 + (file.length / 5 + file.length % 5) / 3 := rfl
    have hg2 : (chunkSizes file.length).getD 2 0 =
        file.length / 5 + (file.length / 5 + file.length % 5) / 3 := rfl
    have hg3 : (chunkSizes file.length).getD 3 0 =
        file.length / 5 + (file.length / 5 + file.length % 5) % 3 := rfl
    rw [hg0, hg1, hg2, hg3]
    omega
  unfold downloadedBytes
  rw [hw 0, hw 1, hw 2, hw 3, hb0, hb1, hb2, hb3]
  simp only [List.append_assoc]
  exact take_four_concat file ((chunkSizes file.length).getD 0 0)
    ((chunkSizes file.length).getD 1 0) ((chunkSizes file.length).getD 2 0)
    ((chunkSizes file.length).getD 3 0) hsum

/-- Witness for C4 amended: a 10-byte file downloaded with completion
order 2, 0, 3, 1 reassembles to the original bytes. -/
theorem c4_witness : downloadedBytes file10 [2, 0, 3, 1] = file10 :=
  c4_reassembly_order_independent file10 [2, 0, 3, 1] (by decide)
    (by
      intro i
      rw [retrLoop_eq]
      fin_cases i <;> decide)
